import Mathlib

/-!
Verification of the Team-and-Task-Management-App frontend
(src/frontend/js/api.js, auth.js, dashboard.js) against its
natural-language specification.

The JavaScript sources are shallowly embedded: each relevant JS function
becomes a Lean definition over explicit state, browser interaction
(prompts, confirms, fetch responses) becomes explicit parameters, and the
DOM / HTTP effects become returned action values.
-/

/-! ## JavaScript string primitives -/

/-- Model of the JS truthiness idiom `x || dflt` applied to a nullable
string: `null` and the empty string both fall back to the default. -/
def jsOr (v : Option String) (dflt : String) : String :=
  match v with
  | some s => if s = "" then dflt else s
  | none => dflt

/-- Model of `x || dflt` for a plain (non-nullable) string. -/
def jsOrStr (s dflt : String) : String :=
  if s = "" then dflt else s

/-- Model of `x || null`: a nullable string collapsed so that the empty
string becomes `null`. -/
def jsOrNull (v : Option String) : Option String :=
  match v with
  | some s => if s = "" then none else some s
  | none => none

/-- Model of `String.prototype.toLowerCase()` (ASCII letters; the role and
status strings handled by the app are ASCII). -/
def jsToLower (s : String) : String :=
  ⟨s.data.map Char.toLower⟩

/-- Whitespace characters stripped by `String.prototype.trim()`. -/
def jsIsWhite (c : Char) : Bool :=
  c = ' ' || c = '\t' || c = '\n' || c = '\r'

/-- Model of `String.prototype.trim()`. -/
def jsTrim (s : String) : String :=
  ⟨((s.data.dropWhile jsIsWhite).reverse.dropWhile jsIsWhite).reverse⟩

/-- Split a character list at every occurrence of the separator
character; the result always has one more piece than there are
separators, mirroring JS `String.prototype.split` with a one-character
separator. -/
def splitCharList (sep : Char) : List Char → List (List Char)
  | [] => [[]]
  | c :: rest =>
    let r := splitCharList sep rest
    if c = sep then [] :: r
    else
      match r with
      | h :: t => (c :: h) :: t
      | [] => [[c]]

/-- Model of `String.prototype.split("-")` as used on due-date strings. -/
def jsSplitOnDash (s : String) : List String :=
  (splitCharList '-' s.data).map (fun l => ⟨l⟩)

/-- True when the second list contains the first as a contiguous
sub-sequence. -/
def listContainsSub : List Char → List Char → Bool
  | needle, [] => needle.isEmpty
  | needle, c :: rest => needle.isPrefixOf (c :: rest) || listContainsSub needle rest

/-- Model of `String.prototype.includes(sub)` (equivalently
`indexOf(sub) !== -1`). -/
def jsIncludes (s sub : String) : Bool :=
  listContainsSub sub.data s.data

/-- Value of a leading run of decimal digits; `none` when there is no
leading digit (JS `NaN`). -/
def leadingDigitsVal (cs : List Char) : Option Nat :=
  match cs.takeWhile Char.isDigit with
  | [] => none
  | ds => some (ds.foldl (fun a c => 10 * a + (c.toNat - 48)) 0)

/-- Model of `parseInt(s, 10)`: skip leading whitespace, optional sign,
then the longest digit run; `none` models `NaN`. -/
def jsParseInt (s : String) : Option Int :=
  match s.data.dropWhile jsIsWhite with
  | '-' :: rest => (leadingDigitsVal rest).map (fun n => -(n : Int))
  | '+' :: rest => (leadingDigitsVal rest).map (fun n => (n : Int))
  | cs => (leadingDigitsVal cs).map (fun n => (n : Int))

/-- Model of the regular expression test for the date shape
required by dashboard.js for dates entered in prompts
(four digits, dash, two digits, dash, two digits). -/
def isDateShape (s : String) : Bool :=
  match s.data with
  | [a, b, c, d, e, f, g, h, i, j] =>
    a.isDigit && b.isDigit && c.isDigit && d.isDigit && e = '-' &&
      f.isDigit && g.isDigit && h = '-' && i.isDigit && j.isDigit
  | _ => false

/-! ## Date arithmetic (dashboard.js `computeWorkingDaysLeft`) -/

/-- Day number (days since 1970-01-01) of the calendar date produced by
`Date.UTC(y, m, d)` with a 0-based month index `m`.  Follows the
ECMAScript semantics: years 0..99 are offset to 1900..1999, out-of-range
month indices roll the year, out-of-range days roll the month. -/
def jsDateUTC (y m d : Int) : Int :=
  let yAdj := if 0 ≤ y ∧ y ≤ 99 then y + 1900 else y
  let ny := yAdj + m.fdiv 12
  let nm := m.emod 12 + 1
  let yy := if nm ≤ 2 then ny - 1 else ny
  let era := yy.fdiv 400
  let yoe := yy - era * 400
  let mp := (nm + 9).emod 12
  let doy := (153 * mp + 2).fdiv 5
  let doe := yoe * 365 + yoe.fdiv 4 - yoe.fdiv 100 + doy
  era * 146097 + doe - 719468 + (d - 1)

/-- Day number `n` falls on Monday..Friday.  `getUTCDay()` of day number
`n` is `(n + 4) mod 7` (day 0, 1970-01-01, was a Thursday); Sunday is 0
and Saturday is 6. -/
def isWorkingDay (n : Int) : Bool :=
  decide ((n + 4).emod 7 ≠ 0 ∧ (n + 4).emod 7 ≠ 6)

/-- The cursor loop of `computeWorkingDaysLeft`: starting at day number
`cursor`, count working days over `fuel` consecutive days. -/
def countWorkingLoop : Nat → Int → Nat
  | 0, _ => 0
  | fuel + 1, cursor =>
    (if isWorkingDay cursor then 1 else 0) + countWorkingLoop fuel (cursor + 1)

/-- Specification-side count: working days in the half-open day-number
interval `[a, b)`. -/
def workingDayCount (a b : Int) : ℕ :=
  ((Finset.Ico a b).filter (fun n => isWorkingDay n = true)).card

/-- Tail of `computeWorkingDaysLeft` once both day numbers are known
(dashboard.js lines 292-309): zero on the same day, otherwise the signed
working-day count of the cursor loop. -/
def workingDaysFromTo (todayUtc dueUtc : Int) : Int :=
  if todayUtc = dueUtc then 0
  else
    let forward := todayUtc < dueUtc
    let start := if forward then todayUtc else dueUtc
    let stop := if forward then dueUtc else todayUtc
    let days : Nat := countWorkingLoop (stop - start).toNat start
    if forward then (days : Int) else -(days : Int)

/-- Embedding of dashboard.js `computeWorkingDaysLeft(dueDateStr)`.  The
browser clock is passed explicitly as `todayYear` (`getFullYear()`),
`todayMonthIdx` (`getMonth()`, 0-based) and `todayDay` (`getDate()`). -/
def computeWorkingDaysLeft (todayYear todayMonthIdx todayDay : Int)
    (dueDateStr : String) : Option Int :=
  if dueDateStr = "" then none
  else
    match jsSplitOnDash dueDateStr with
    | [p0, p1, p2] =>
      match jsParseInt p0, jsParseInt p1, jsParseInt p2 with
      | some year, some month1, some day =>
        some (workingDaysFromTo (jsDateUTC todayYear todayMonthIdx todayDay)
          (jsDateUTC year (month1 - 1) day))
      | _, _, _ => none
    | _ => none

/-! ## Browser localStorage and client role state -/

/-- Slice of `localStorage` used by the app (api.js, auth.js,
dashboard.js): each key holds `none` when absent. -/
structure LocalStore where
  session_token : Option String
  user_id : Option String
  username : Option String
  role : Option String
deriving Repr, DecidableEq

/-- The store after the 401 handler removed the four session keys. -/
def clearedStore : LocalStore :=
  { session_token := none, user_id := none, username := none, role := none }

/-- Mutable client state of dashboard.js: the localStorage slice plus the
module-level `effectiveDisplayRole` variable (initially `null`). -/
structure ClientState where
  store : LocalStore
  effectiveDisplayRole : Option String
deriving Repr, DecidableEq

/-- Embedding of dashboard.js `getEffectiveRole()`. -/
def getEffectiveRole (st : ClientState) : String :=
  match st.effectiveDisplayRole with
  | some r => jsToLower r
  | none => jsToLower (jsOr st.store.role "member")

/-- Embedding of dashboard.js `isUserAdmin()`. -/
def isUserAdmin (st : ClientState) : Bool :=
  let role := jsToLower (jsOr st.store.role "member")
  role == "admin" || role == "division head"

/-- Embedding of dashboard.js `canAssignTask()`. -/
def canAssignTask (st : ClientState) : Bool :=
  let role := jsToLower (jsOr st.store.role "member")
  role == "admin" || role == "division head"

/-- Embedding of dashboard.js `canUseMultiAssign()`. -/
def canUseMultiAssign (st : ClientState) : Bool :=
  let role := getEffectiveRole st
  (["admin", "division head", "group head", "team lead", "project director"] : List String).contains role

/-- Team roles that grant an elevated effective display role
(dashboard.js `loadUserTeams`, `teamPrivilegedRoles`). -/
def teamPrivilegedRoles : List String :=
  ["project director", "group head", "team lead"]

/-- Embedding of the `effectiveDisplayRole` computation in dashboard.js
`loadUserTeams` (lines 331-345): the global role when it is admin or
division head, otherwise the first privileged team role, otherwise the
global role.  `teamRoles` lists each team record's `user_role` field. -/
def computeEffectiveDisplayRole (store : LocalStore) (teamRoles : List (Option String)) : String :=
  let globalRole := jsToLower (jsOr store.role "member")
  if globalRole == "admin" || globalRole == "division head" then globalRole
  else
    match (teamRoles.map (fun r => jsTrim (jsToLower (jsOr r "")))).find?
        (fun r => teamPrivilegedRoles.contains r) with
    | some r => r
    | none => globalRole

/-- Visibility of the role-gated dashboard sections set by
`setupRoleBasedUI` (dashboard.js lines 83-156). -/
structure UIVisibility where
  teamSection : Bool
  deleteTeamCard : Bool
  removeMemberCard : Bool
  closureGroup : Bool
  usersSection : Bool
  multiAssignWrap : Bool
  singleAssignWrap : Bool
  leadWrap : Bool
  shareWrap : Bool
  typeHint : Bool
deriving Repr, DecidableEq

/-- Embedding of dashboard.js `setupRoleBasedUI(userRole)`.  The argument
is the role string passed by the caller; the assignment wraps also read
`canUseMultiAssign` / `canAssignTask` from the client state. -/
def setupRoleBasedUI (userRole : Option String) (st : ClientState) : UIVisibility :=
  let role := jsToLower (jsOr userRole "member")
  let isAdmin := role == "admin" || role == "division head"
  let canCreateTeam := isAdmin || role == "team lead" || role == "project director" || role == "group head"
  let canRemoveMember := isAdmin || role == "project director" || role == "group head" || role == "team lead"
  let closure := role == "team lead" || role == "group head" || role == "project director" ||
    role == "division head" || role == "admin"
  let multi := canUseMultiAssign st
  let single := !multi && canAssignTask st
  { teamSection := canCreateTeam
    deleteTeamCard := isAdmin
    removeMemberCard := canRemoveMember
    closureGroup := closure
    usersSection := isAdmin
    multiAssignWrap := multi
    singleAssignWrap := single
    leadWrap := single
    shareWrap := single
    typeHint := !canAssignTask st && !canUseMultiAssign st }

/-! ## HTTP request/response model (api.js) -/

/-- Minimal JSON body model: the `detail` field the client reads, plus the
full `JSON.stringify` rendering used as an error-message fallback. -/
structure JsBody where
  detail : Option String
  raw : String
deriving Repr, DecidableEq

/-- An HTTP response as observed by `fetch`. -/
structure HttpResponse where
  status : Nat
  contentType : Option String
  body : JsBody
  statusText : String
deriving Repr, DecidableEq

/-- The `response.ok` flag: status in the 2xx range. -/
def respOk (r : HttpResponse) : Bool :=
  decide (200 ≤ r.status ∧ r.status < 300)

/-- True when the response declares a JSON content type
(`contentType && contentType.includes("application/json")`). -/
def respIsJson (r : HttpResponse) : Bool :=
  match r.contentType with
  | some ct => jsIncludes ct "application/json"
  | none => false

/-- Parsing step shared by `apiRequest` and `apiRequestFormData`: the JSON
body for JSON responses, otherwise a synthetic
`{ detail: statusText || "Request failed" }` object. -/
def parseBody (r : HttpResponse) : JsBody :=
  if respIsJson r then r.body
  else { detail := some (jsOrStr r.statusText "Request failed"), raw := "" }

/-- The outgoing HTTP request assembled by api.js. -/
structure HttpRequest where
  url : String
  method : String
  headers : List (String × String)
  body : Option String
deriving Repr, DecidableEq

/-- Result of one api.js call: the single request that was issued, the
localStorage contents afterwards, whether the browser was redirected to
index.html, and the value returned or the error thrown. -/
structure ApiResult where
  request : HttpRequest
  storeAfter : LocalStore
  redirected : Bool
  outcome : Except String JsBody
deriving Repr

/-- Response handling shared verbatim by `apiRequest` and
`apiRequestFormData` (api.js lines 48-72 and 93-117): parse the body,
handle 401 by clearing the session keys, redirecting when the page path
contains "dashboard" and throwing, throw on any other non-ok status, and
return the parsed body otherwise. -/
def handleResponse (request : HttpRequest) (store : LocalStore) (path : String)
    (resp : HttpResponse) : ApiResult :=
  let result := parseBody resp
  if resp.status = 401 then
    { request := request
      storeAfter := clearedStore
      redirected := jsIncludes path "dashboard"
      outcome := Except.error (jsOr result.detail "Session expired") }
  else if respOk resp = false then
    let msg := match result.detail with
      | some d => d
      | none => result.raw
    { request := request, storeAfter := store, redirected := false
      outcome := Except.error msg }
  else
    { request := request, storeAfter := store, redirected := false
      outcome := Except.ok result }

/-- The request assembled by api.js `apiRequest` (lines 31-43): JSON
content type, the session token header when `useAuth` holds and a token
is present, and a body only for POST/PUT with data. -/
def apiRequestReq (endpoint method : String) (data : Option String) (useAuth : Bool)
    (store : LocalStore) : HttpRequest :=
  { url := endpoint
    method := method
    headers := [("Content-Type", "application/json")] ++
      (if useAuth then
        match jsOrNull store.session_token with
        | some t => [("X-Session-Token", t)]
        | none => []
      else [])
    body := if data ≠ none ∧ (method = "POST" ∨ method = "PUT") then data else none }

/-- Embedding of api.js `apiRequest(endpoint, method, data, useAuth)`.
`data` is the JSON-stringified request body (`none` models `null`),
`path` is `window.location.pathname`, and `resp` the fetched response. -/
def apiRequest (endpoint method : String) (data : Option String) (useAuth : Bool)
    (store : LocalStore) (path : String) (resp : HttpResponse) : ApiResult :=
  handleResponse (apiRequestReq endpoint method data useAuth store) store path resp

/-- The request assembled by api.js `apiRequestFormData` (lines 82-88):
only the session token header (when a token is present), the form data
as body. -/
def apiRequestFormDataReq (endpoint method : String) (formData : String)
    (store : LocalStore) : HttpRequest :=
  { url := endpoint
    method := method
    headers :=
      match jsOrNull store.session_token with
      | some t => [("X-Session-Token", t)]
      | none => []
    body := some formData }

/-- Embedding of api.js `apiRequestFormData(endpoint, method, formData)`:
always authenticated when a token is present, body is the form data. -/
def apiRequestFormData (endpoint method : String) (formData : String)
    (store : LocalStore) (path : String) (resp : HttpResponse) : ApiResult :=
  handleResponse (apiRequestFormDataReq endpoint method formData store) store path resp

/-- The endpoints auth.js reaches with `useAuth = false`: login, user
registration and the two credential-reset endpoints. -/
def unauthEndpoints : List String :=
  ["/login", "/users", "/auth/reset-username", "/auth/reset-password"]

/-! ## Role values written to localStorage -/

/-- Role value stored at login (auth.js line 32):
`(res.role || "member").toLowerCase()`. -/
def loginStoredRole (serverRole : Option String) : String :=
  jsToLower (jsOr serverRole "member")

/-- Role value stored by the `/users/me` sync (dashboard.js line 44):
`(me.role || "member").toLowerCase()`. -/
def syncStoredRole (meRole : Option String) : String :=
  jsToLower (jsOr meRole "member")

/-- Role values a user can store for themselves through the quick
role-change buttons (dashboard.js lines 1881, 1889 feeding
`updateUserRole`, which writes `newRole` verbatim at line 1915). -/
def selfRoleChangeValues : List String :=
  ["division head", "member"]

/-- Predicate: the string is unchanged by lowercasing. -/
def isLowercaseNormalized (s : String) : Prop :=
  jsToLower s = s

/-! ## Task row controls (dashboard.js `loadTasks`) -/

/-- The status dropdown option values (dashboard.js lines 1220-1224: the
label "Pending" maps to the value "Pending Completion"). -/
def statusOptionValues : List String :=
  ["To Do", "In Progress", "Pending", "Completed"].map
    (fun s => if s = "Pending" then "Pending Completion" else s)

/-- The status select of a task row: its four status values, the extra
admin action values, and whether the control is disabled. -/
structure StatusControl where
  targets : List String
  extras : List String
  disabled : Bool
deriving Repr, DecidableEq

/-- Embedding of the status-select construction in `loadTasks`
(dashboard.js lines 1217-1231 and 1369-1376): the select is disabled
exactly when the task status is "Pending Completion", and admins or
completion approvers get extra maintenance entries. -/
def buildStatusControl (st : ClientState) (taskStatus : String)
    (canApproveCompletion : Bool) (hasAssignee : Bool) : StatusControl :=
  { targets := statusOptionValues
    extras :=
      if isUserAdmin st || canApproveCompletion then
        ["__change_due_date__"] ++
          (if canAssignTask st && hasAssignee then ["__unassign_task__"] else []) ++
          ["__delete_task__", "__delete_activity__"]
      else []
    disabled := taskStatus == "Pending Completion" }

/-- Values the user can actually choose from a status select: none when
the control is disabled. -/
def selectableTargets (c : StatusControl) : List String :=
  if c.disabled then [] else c.targets ++ c.extras

/-- Outcome of dashboard.js `updateStatus(taskId, status)`. -/
inductive StatusUpdateAction where
  | openProofModal (taskId : Int)
  | putStatus (url : String) (status : String)
deriving Repr, DecidableEq

/-- Embedding of dashboard.js `updateStatus` (lines 1506-1523). -/
def updateStatus (st : ClientState) (taskId : Int) (status : String) : StatusUpdateAction :=
  if status == "Completed" && !isUserAdmin st then
    StatusUpdateAction.openProofModal taskId
  else
    StatusUpdateAction.putStatus ("/tasks/" ++ toString taskId ++ "/status") status

/-- Row action resulting from a status-select change
(dashboard.js `handleActionSelect`, lines 1420-1504; the sentinel values
trigger maintenance flows, everything else goes to `updateStatus`). -/
inductive RowAction where
  | changeDueDate
  | unassignTask
  | deleteTask
  | deleteActivity
  | status (a : StatusUpdateAction)
deriving Repr, DecidableEq

/-- Embedding of dashboard.js `handleActionSelect(taskId, activityId,
currentStatus, selectEl)` restricted to the dispatch on the chosen value. -/
def handleActionSelect (st : ClientState) (taskId : Int) (val : String) : RowAction :=
  if val == "__change_due_date__" then RowAction.changeDueDate
  else if val == "__unassign_task__" then RowAction.unassignTask
  else if val == "__delete_task__" then RowAction.deleteTask
  else if val == "__delete_activity__" then RowAction.deleteActivity
  else RowAction.status (updateStatus st taskId val)

/-- Outcome of dashboard.js `submitCompletionProof` (lines 1540-1568). -/
inductive CompletionProofAction where
  | noFileToast
  | postProof (url : String) (fileName : String)
deriving Repr, DecidableEq

/-- Embedding of `submitCompletionProof`: with no selected file only a
toast is shown; otherwise the proof file is posted as form data to
`POST /tasks/(id)/completion-requests`. -/
def submitCompletionProof (taskId : String) (file : Option String) : CompletionProofAction :=
  match file with
  | none => CompletionProofAction.noFileToast
  | some f => CompletionProofAction.postProof ("/tasks/" ++ taskId ++ "/completion-requests") f

/-- Task fields involved in the completion-approval sub-state. -/
structure TaskRec where
  status : String
  completion_status : Option String
deriving Repr, DecidableEq

/-- Modelled from the spec: the backend handler for
`POST /tasks/(id)/completion-requests` is not among the repository
sources under src (only the frontend is).  Per the spec, submitting a
completion proof places the task in "Pending Completion" with a pending
completion request until an approver accepts or rejects it. -/
def backendApplyCompletionSubmit (t : TaskRec) : TaskRec :=
  { t with status := "Pending Completion", completion_status := some "pending" }

/-! ## Extension requests (dashboard.js) -/

/-- Click action carried by the extension-request button. -/
inductive ExtButtonAction where
  | openRequest (taskId : Int) (currentDue : String)
  | review (requestId : Int) (taskId : Int)
deriving Repr, DecidableEq

/-- The extension-request button of a task row. -/
structure ExtButton where
  label : String
  disabled : Bool
  action : Option ExtButtonAction
deriving Repr, DecidableEq

/-- Embedding of the extension-button construction in `loadTasks`
(dashboard.js lines 1267-1298). -/
def extensionButton (st : ClientState) (taskId : Int) (dueRaw : Option String)
    (extStatus : Option String) (extRequestId : Option Int) : ExtButton :=
  match jsOrNull extStatus with
  | none =>
    { label := "Request", disabled := false
      action := some (ExtButtonAction.openRequest taskId (jsOr dueRaw "")) }
  | some es =>
    if es = "rejected" ∨ es = "approved" then
      { label := "Request", disabled := false
        action := some (ExtButtonAction.openRequest taskId (jsOr dueRaw "")) }
    else if es = "pending" then
      if isUserAdmin st then
        { label := "Pending", disabled := false
          action := some (ExtButtonAction.review (extRequestId.getD 0) taskId) }
      else
        { label := "Pending", disabled := true, action := none }
    else
      { label := "Request", disabled := false, action := none }

/-- A request issued by one of the dashboard flows: URL, method and the
key/value pairs of its JSON payload. -/
structure ReqLite where
  url : String
  method : String
  payload : List (String × String)
deriving Repr, DecidableEq

/-- Embedding of dashboard.js `openExtensionRequest(taskId, currentDue)`
(lines 1608-1635).  `proposedInput` and `reasonInput` are the prompt
results (`none` models cancel); `none` is returned when no request is
issued. -/
def openExtensionRequest (taskId : Int) (proposedInput reasonInput : Option String) :
    Option ReqLite :=
  if taskId = 0 then none
  else
    match jsOrNull proposedInput with
    | none => none
    | some p =>
      let p := jsTrim p
      if isDateShape p = false then none
      else
        match jsOrNull reasonInput with
        | none => none
        | some reason =>
          some { url := "/tasks/" ++ toString taskId ++ "/extension-requests"
                 method := "POST"
                 payload := [("requested_due_date", p), ("reason", reason)] }

/-- Embedding of dashboard.js `reviewExtensionRequest(requestId, taskId,
btnEl)` (lines 1637-1681).  `approve` is the confirm result and
`finalInput` the optional final-due-date prompt result. -/
def reviewExtensionRequest (st : ClientState) (requestId taskId : Int)
    (approve : Bool) (finalInput : Option String) : Option ReqLite :=
  if requestId = 0 then none
  else if isUserAdmin st = false then none
  else
    let base := [("status", if approve then "approved" else "rejected")]
    let url := "/tasks/extension-requests/" ++ toString requestId
    if approve then
      match finalInput with
      | some f =>
        if jsTrim f ≠ "" then
          if isDateShape (jsTrim f) then
            some { url := url, method := "PUT", payload := base ++ [("new_due_date", jsTrim f)] }
          else none
        else some { url := url, method := "PUT", payload := base }
      | none => some { url := url, method := "PUT", payload := base }
    else some { url := url, method := "PUT", payload := base }

/-! ## Team deletion (dashboard.js `confirmDeleteTeam`) -/

/-- Observable effects of the team-deletion flow. -/
inductive ClientEffect where
  | toastError (msg : String)
  | toastSuccess (msg : String)
  | httpDelete (url : String)
  | reloadTeams
  | reloadTasks
  | reloadLogs
deriving Repr, DecidableEq

/-- Embedding of dashboard.js `confirmDeleteTeam` (lines 1020-1040):
`selection` is the selected team id (`none` when no selection),
`confirmed` the confirm-dialog result, and `result` the outcome of the
DELETE request. -/
def confirmDeleteTeam (selection : Option Nat) (confirmed : Bool)
    (result : Except String Unit) : List ClientEffect :=
  match selection with
  | none => [ClientEffect.toastError "Select a team to delete"]
  | some tid =>
    if confirmed = false then []
    else
      ClientEffect.httpDelete ("/teams/" ++ toString tid) ::
        (match result with
         | Except.ok _ =>
           [ClientEffect.toastSuccess "Team deleted", ClientEffect.reloadTeams,
            ClientEffect.reloadTasks, ClientEffect.reloadLogs]
         | Except.error e =>
           [ClientEffect.toastError (jsOrStr e "Failed to delete team")])

/-- A team row in the relational store. -/
structure TeamRec where
  id : Nat
  members : List Nat
  tasks : List Nat
deriving Repr, DecidableEq

/-- Modelled from the spec: the backend handler for
`DELETE /teams/(team_id)` is not among the repository sources under src.
Per the spec, deletion is subject to cascading restrictions: a team that
still has members or tasks cannot be deleted. -/
def backendDeleteTeam (teams : List TeamRec) (tid : Nat) :
    Except String (List TeamRec) :=
  match teams.find? (fun t => t.id == tid) with
  | none => Except.error "Team not found"
  | some t =>
    if t.members = [] ∧ t.tasks = [] then
      Except.ok (teams.filter (fun x => !(x.id == tid)))
    else
      Except.error "Cannot delete a team that still has members or tasks"

/-- A concrete admin client state used by closed witness statements. -/
def adminClientState : ClientState :=
  { store := { session_token := some "tok", user_id := some "1",
               username := some "root", role := some "admin" }
    effectiveDisplayRole := none }

/-- A concrete non-privileged client state used by closed witness
statements. -/
def memberClientState : ClientState :=
  { store := { session_token := some "tok", user_id := some "2",
               username := some "m", role := some "member" }
    effectiveDisplayRole := none }

/-! ## Supporting lemmas -/

theorem countWorkingLoop_eq (n : Nat) :
    ∀ a : Int, countWorkingLoop n a = workingDayCount a (a + n) := by
  induction n with
  | zero =>
    intro a
    simp [countWorkingLoop, workingDayCount]
  | succ k ih =>
    intro a
    have hsplit : Finset.Ico a (a + (k + 1 : Nat)) =
        insert a (Finset.Ico (a + 1) ((a + 1) + (k : Nat))) := by
      ext x
      simp only [Finset.mem_Ico, Finset.mem_insert]
      omega
    have hnm : a ∉ Finset.Ico (a + 1) ((a + 1) + (k : Nat)) := by
      simp only [Finset.mem_Ico]
      omega
    have hcard : workingDayCount a (a + (k + 1 : Nat)) =
        (if isWorkingDay a then 1 else 0) +
          workingDayCount (a + 1) ((a + 1) + (k : Nat)) := by
      unfold workingDayCount
      rw [hsplit, Finset.filter_insert]
      by_cases hw : isWorkingDay a = true
      · rw [if_pos hw, Finset.card_insert_of_not_mem (fun hmem => hnm (Finset.mem_of_mem_filter _ hmem))]
        simp [hw, Nat.add_comm]
      · rw [if_neg hw]
        simp [hw]
    rw [hcard, ← ih (a + 1)]
    simp [countWorkingLoop]

theorem char_toLower_idem (c : Char) : c.toLower.toLower = c.toLower := by
  have key : ∀ x : Char, x.toLower =
      if x.toNat ≥ 65 ∧ x.toNat ≤ 90 then Char.ofNat (x.toNat + 32) else x :=
    fun _ => rfl
  by_cases h : c.toNat ≥ 65 ∧ c.toNat ≤ 90
  · rw [key c, if_pos h]
    obtain ⟨h1, h2⟩ := h
    generalize hn : c.toNat = n
    rw [hn] at h1 h2
    interval_cases n <;> decide
  · rw [key c, if_neg h, key c, if_neg h]

theorem jsToLower_idem (s : String) : jsToLower (jsToLower s) = jsToLower s := by
  have hmap : ∀ l : List Char, (l.map Char.toLower).map Char.toLower = l.map Char.toLower := by
    intro l
    induction l with
    | nil => rfl
    | cons c cs ih => simp [ih, char_toLower_idem c]
  show String.mk ((s.data.map Char.toLower).map Char.toLower) = String.mk (s.data.map Char.toLower)
  rw [hmap]

theorem jsToLower_eq_empty_iff (s : String) : jsToLower s = "" ↔ s = "" := by
  constructor
  · intro h
    have hdata : s.data.map Char.toLower = [] := congrArg String.data h
    have hnil : s.data = [] := List.map_eq_nil.mp hdata
    cases s with
    | mk data => cases hnil; rfl
  · intro h
    rw [h]
    rfl

theorem getEffectiveRole_of_computed (store : LocalStore) (teamRoles : List (Option String)) :
    getEffectiveRole ⟨store, some (computeEffectiveDisplayRole store teamRoles)⟩ =
      computeEffectiveDisplayRole store teamRoles := by
  show jsToLower (computeEffectiveDisplayRole store teamRoles) = _
  unfold computeEffectiveDisplayRole
  set g := jsToLower (jsOr store.role "member") with hg
  by_cases hadm : (g == "admin" || g == "division head") = true
  · rw [if_pos hadm]
    rcases (by simpa using hadm : g = "admin" ∨ g = "division head") with h | h <;>
      rw [h] <;> rfl
  · rw [if_neg hadm]
    cases hfind : (teamRoles.map (fun r => jsTrim (jsToLower (jsOr r "")))).find?
        (fun r => teamPrivilegedRoles.contains r) with
    | some r =>
      have hpred := List.find?_some hfind
      have hmem : r = "project director" ∨ r = "group head" ∨ r = "team lead" := by
        simpa [teamPrivilegedRoles] using hpred
      rcases hmem with h | h | h <;> rw [h] <;> rfl
    | none =>
      rw [hg]
      exact jsToLower_idem _

theorem effectiveRole_admin_iff (store : LocalStore) (teamRoles : List (Option String)) :
    (getEffectiveRole ⟨store, some (computeEffectiveDisplayRole store teamRoles)⟩ = "admin" ∨
     getEffectiveRole ⟨store, some (computeEffectiveDisplayRole store teamRoles)⟩ = "division head") ↔
      isUserAdmin ⟨store, some (computeEffectiveDisplayRole store teamRoles)⟩ = true := by
  rw [getEffectiveRole_of_computed]
  show _ ↔ (let role := jsToLower (jsOr store.role "member");
    role == "admin" || role == "division head") = true
  unfold computeEffectiveDisplayRole
  set g := jsToLower (jsOr store.role "member") with hg
  by_cases hadm : (g == "admin" || g == "division head") = true
  · rw [if_pos hadm]
    simpa using hadm
  · rw [if_neg hadm]
    cases hfind : (teamRoles.map (fun r => jsTrim (jsToLower (jsOr r "")))).find?
        (fun r => teamPrivilegedRoles.contains r) with
    | some r =>
      have hpred := List.find?_some hfind
      have hmem : r = "project director" ∨ r = "group head" ∨ r = "team lead" := by
        simpa [teamPrivilegedRoles] using hpred
      constructor
      · intro hcontra
        rcases hmem with h | h | h <;> rw [h] at hcontra <;> simp at hcontra
      · intro hcontra
        exact absurd hcontra hadm
    | none =>
      constructor
      · intro hcontra
        exfalso
        apply hadm
        have h2 : g = "admin" ∨ g = "division head" := hcontra
        rcases h2 with h | h <;> simp [h]
      · intro hcontra
        exact absurd hcontra hadm

theorem handleResponse_request (request : HttpRequest) (store : LocalStore)
    (path : String) (resp : HttpResponse) :
    (handleResponse request store path resp).request = request := by
  unfold handleResponse
  split_ifs <;> rfl

theorem handleResponse_notOk (request : HttpRequest) (store : LocalStore)
    (path : String) (resp : HttpResponse) (hok : respOk resp = false) :
    ∀ b, (handleResponse request store path resp).outcome ≠ Except.ok b := by
  intro b
  by_cases h1 : resp.status = 401
  · simp [handleResponse, h1]
  · simp [handleResponse, h1, hok]

theorem handleResponse_error (request : HttpRequest) (store : LocalStore)
    (path : String) (resp : HttpResponse) (hok : respOk resp = false) :
    ∃ msg, (handleResponse request store path resp).outcome = Except.error msg := by
  by_cases h1 : resp.status = 401
  · exact ⟨jsOr (parseBody resp).detail "Session expired", by simp [handleResponse, h1]⟩
  · refine ⟨(match (parseBody resp).detail with
      | some d => d
      | none => (parseBody resp).raw), ?_⟩
    simp [handleResponse, h1, hok]

/-! ## Claim theorems -/

/-- C8: for a due-date string that splits into three numeric parts
(a well-formed YYYY-MM-DD date), `computeWorkingDaysLeft` returns 0 when
the due date is today's calendar date, the count of working days
(Monday-Friday) in the half-open day interval from today to the due date
when the due date is strictly later, the negated count over the interval
from the due date to today when it is strictly earlier, and `none` for
the empty string, for inputs that do not split into three parts, and for
parts that do not parse as numbers. -/
theorem countWorkingLoop_toNat (a b : Int) (hle : a ≤ b) :
    countWorkingLoop (b - a).toNat a = workingDayCount a b := by
  have h := countWorkingLoop_eq (b - a).toNat a
  rw [Int.toNat_of_nonneg (by omega)] at h
  rw [show a + (b - a) = b from by ring] at h
  exact h

theorem workingDaysFromTo_same (a : Int) : workingDaysFromTo a a = 0 := by
  simp [workingDaysFromTo]

theorem workingDaysFromTo_fwd (a b : Int) (h : a < b) :
    workingDaysFromTo a b = (workingDayCount a b : Int) := by
  have hneq : a ≠ b := ne_of_lt h
  simp only [workingDaysFromTo, if_neg hneq, if_pos h]
  rw [countWorkingLoop_toNat a b (le_of_lt h)]

theorem workingDaysFromTo_bwd (a b : Int) (h : b < a) :
    workingDaysFromTo a b = -(workingDayCount b a : Int) := by
  have hneq : a ≠ b := ne_of_gt h
  have hnlt : ¬(a < b) := not_lt.mpr (le_of_lt h)
  simp only [workingDaysFromTo, if_neg hneq, if_neg hnlt]
  rw [countWorkingLoop_toNat b a (le_of_lt h)]

/-- C8: for a due-date string that splits into three numeric parts
(a well-formed YYYY-MM-DD date), `computeWorkingDaysLeft` returns 0 when
the due date is today's calendar date, the count of working days
(Monday-Friday) in the half-open day interval from today to the due date
when the due date is strictly later, the negated count over the interval
from the due date to today when it is strictly earlier, and `none` for
the empty string, for inputs that do not split into three parts, and for
parts that do not parse as numbers. -/
theorem computeWorkingDaysLeft_correct
    (ty tm td : Int) (s p0 p1 p2 : String) (y m d : Int)
    (hs : jsSplitOnDash s = [p0, p1, p2])
    (h0 : jsParseInt p0 = some y) (h1 : jsParseInt p1 = some m) (h2 : jsParseInt p2 = some d)
    (hy : 100 ≤ y) (hm : 1 ≤ m ∧ m ≤ 12) (hd : 1 ≤ d ∧ d ≤ 31) :
    (jsDateUTC ty tm td = jsDateUTC y (m - 1) d →
      computeWorkingDaysLeft ty tm td s = some 0) ∧
    (jsDateUTC ty tm td < jsDateUTC y (m - 1) d →
      computeWorkingDaysLeft ty tm td s =
        some (workingDayCount (jsDateUTC ty tm td) (jsDateUTC y (m - 1) d))) ∧
    (jsDateUTC y (m - 1) d < jsDateUTC ty tm td →
      computeWorkingDaysLeft ty tm td s =
        some (-(workingDayCount (jsDateUTC y (m - 1) d) (jsDateUTC ty tm td) : Int))) ∧
    (∀ q : String,
      q = "" ∨ (jsSplitOnDash q).length ≠ 3 ∨
        (∃ part ∈ jsSplitOnDash q, jsParseInt part = none) →
      computeWorkingDaysLeft ty tm td q = none) := by
  have hne : s ≠ "" := by
    intro h
    rw [h] at hs
    simp [show jsSplitOnDash "" = [""] from rfl] at hs
  refine ⟨?_, ?_, ?_, ?_⟩
  · intro heq
    simp [computeWorkingDaysLeft, hne, hs, h0, h1, h2, heq, workingDaysFromTo_same]
  · intro hlt
    simp [computeWorkingDaysLeft, hne, hs, h0, h1, h2,
      workingDaysFromTo_fwd _ _ hlt]
  · intro hgt
    simp [computeWorkingDaysLeft, hne, hs, h0, h1, h2,
      workingDaysFromTo_bwd _ _ hgt]
  · intro q hq
    by_cases hqe : q = ""
    · simp [computeWorkingDaysLeft, hqe]
    · rcases hsp : jsSplitOnDash q with _ | ⟨a, _ | ⟨b, _ | ⟨c, _ | ⟨e, rest⟩⟩⟩⟩ <;>
        simp [computeWorkingDaysLeft, hqe, hsp]
      rcases hq with hq | hq | hq
      · exact absurd hq hqe
      · rw [hsp] at hq
        simp at hq
      · obtain ⟨part, hpmem, hpnone⟩ := hq
        rw [hsp] at hpmem
        cases hpa : jsParseInt a <;> cases hpb : jsParseInt b <;>
          cases hpc : jsParseInt c <;> simp [hpa, hpb, hpc]
        simp at hpmem
        rcases hpmem with rfl | rfl | rfl <;> simp_all

/-- C8 witness: a concrete Monday (2026-10-12) with a due date four
working days later, and a malformed input. -/
theorem computeWorkingDaysLeft_correct_witness :
    computeWorkingDaysLeft 2026 9 12 "2026-10-16" =
      some (workingDayCount (jsDateUTC 2026 9 12) (jsDateUTC 2026 (10 - 1) 16)) ∧
    computeWorkingDaysLeft 2026 9 12 "not-a-date" = none := by
  have h := computeWorkingDaysLeft_correct 2026 9 12 "2026-10-16" "2026" "10" "16" 2026 10 16
    (by decide) (by decide) (by decide) (by decide) (by decide) (by decide) (by decide)
  exact ⟨h.2.1 (by decide), h.2.2.2 "not-a-date" (by decide)⟩

/-- C1: in any client state whose effective display role was computed by
`loadUserTeams`, a user whose effective role is neither "admin" nor
"division head" never issues the direct status PUT when selecting
Completed: `updateStatus` opens the completion-proof modal instead, and
the proof is submitted by `submitCompletionProof` as a POST to
`/tasks/(id)/completion-requests`, after which the (spec-modelled)
backend puts the task in "Pending Completion", a status whose select the
client renders disabled; users whose effective role is "admin" or
"division head" issue the direct status PUT. -/
theorem updateStatus_completionProofGate
    (store : LocalStore) (teamRoles : List (Option String)) (taskId : Int) :
    (¬(getEffectiveRole ⟨store, some (computeEffectiveDisplayRole store teamRoles)⟩ = "admin" ∨
        getEffectiveRole ⟨store, some (computeEffectiveDisplayRole store teamRoles)⟩ = "division head") →
      updateStatus ⟨store, some (computeEffectiveDisplayRole store teamRoles)⟩ taskId "Completed" =
        StatusUpdateAction.openProofModal taskId) ∧
    ((getEffectiveRole ⟨store, some (computeEffectiveDisplayRole store teamRoles)⟩ = "admin" ∨
        getEffectiveRole ⟨store, some (computeEffectiveDisplayRole store teamRoles)⟩ = "division head") →
      updateStatus ⟨store, some (computeEffectiveDisplayRole store teamRoles)⟩ taskId "Completed" =
        StatusUpdateAction.putStatus ("/tasks/" ++ toString taskId ++ "/status") "Completed") ∧
    (∀ (tid f : String), submitCompletionProof tid (some f) =
      CompletionProofAction.postProof ("/tasks/" ++ tid ++ "/completion-requests") f) ∧
    (∀ (t : TaskRec) (canApprove hasAssignee : Bool),
      (backendApplyCompletionSubmit t).status = "Pending Completion" ∧
      (buildStatusControl ⟨store, some (computeEffectiveDisplayRole store teamRoles)⟩
        (backendApplyCompletionSubmit t).status canApprove hasAssignee).disabled = true) := by
  have hiff := effectiveRole_admin_iff store teamRoles
  refine ⟨?_, ?_, ?_, ?_⟩
  · intro hn
    have hadm : isUserAdmin ⟨store, some (computeEffectiveDisplayRole store teamRoles)⟩ = false := by
      cases h : isUserAdmin ⟨store, some (computeEffectiveDisplayRole store teamRoles)⟩ with
      | true => exact absurd (hiff.mpr h) hn
      | false => rfl
    simp [updateStatus, hadm]
  · intro hp
    have hadm := hiff.mp hp
    simp [updateStatus, hadm]
  · intro tid f
    rfl
  · intro t canApprove hasAssignee
    exact ⟨rfl, rfl⟩

/-- C1 witness: a plain member opens the proof modal; an admin issues the
direct PUT. -/
theorem updateStatus_completionProofGate_witness :
    updateStatus ⟨memberClientState.store,
        some (computeEffectiveDisplayRole memberClientState.store [])⟩ 7 "Completed" =
      StatusUpdateAction.openProofModal 7 ∧
    updateStatus ⟨adminClientState.store,
        some (computeEffectiveDisplayRole adminClientState.store [])⟩ 7 "Completed" =
      StatusUpdateAction.putStatus ("/tasks/" ++ toString (7 : Int) ++ "/status") "Completed" :=
  ⟨(updateStatus_completionProofGate memberClientState.store [] 7).1 (by decide),
   (updateStatus_completionProofGate adminClientState.store [] 7).2.1 (by decide)⟩

/-- C2 counterexample: for an admin, a task currently in "Pending
Completion" has its status select disabled, so no status-to-status
transition is offered from that state — the claim that every transition
is offered regardless of the current status fails. -/
theorem statusSelect_pendingCompletion_counterexample :
    (buildStatusControl adminClientState "Pending Completion" false false).disabled = true ∧
    selectableTargets (buildStatusControl adminClientState "Pending Completion" false false) = [] ∧
    "Completed" ∉ selectableTargets
      (buildStatusControl adminClientState "Pending Completion" false false) := by
  refine ⟨by decide, by decide, by decide⟩

/-- C2 (amended): for a privileged role (admin or division head), from
any current status other than "Pending Completion" the status select
offers all four statuses and submits the chosen one as
`PUT /tasks/(id)/status`; when the current status is "Pending
Completion" the select is disabled and offers nothing. -/
theorem statusSelect_privileged_transitions
    (st : ClientState) (hadm : isUserAdmin st = true)
    (current : String) (hcur : current ≠ "Pending Completion")
    (target : String) (htgt : target ∈ statusOptionValues)
    (taskId : Int) (canApprove hasAssignee : Bool) :
    target ∈ selectableTargets (buildStatusControl st current canApprove hasAssignee) ∧
    handleActionSelect st taskId target =
      RowAction.status (StatusUpdateAction.putStatus
        ("/tasks/" ++ toString taskId ++ "/status") target) ∧
    selectableTargets (buildStatusControl st "Pending Completion" canApprove hasAssignee) = [] := by
  have hne : (current == "Pending Completion") = false := by
    simp [hcur]
  refine ⟨?_, ?_, ?_⟩
  · simp only [selectableTargets, buildStatusControl, hne]
    simp [htgt]
  · have h4 : target = "To Do" ∨ target = "In Progress" ∨
        target = "Pending Completion" ∨ target = "Completed" := by
      simpa [statusOptionValues] using htgt
    rcases h4 with rfl | rfl | rfl | rfl <;>
      simp [handleActionSelect, updateStatus, hadm]
  · simp [selectableTargets, buildStatusControl]

/-- C2 witness: concrete admin instance of the amended transition
theorem. -/
theorem statusSelect_privileged_transitions_witness :
    "Completed" ∈ selectableTargets (buildStatusControl adminClientState "In Progress" false false) ∧
    handleActionSelect adminClientState 3 "Completed" =
      RowAction.status (StatusUpdateAction.putStatus
        ("/tasks/" ++ toString (3 : Int) ++ "/status") "Completed") ∧
    selectableTargets (buildStatusControl adminClientState "Pending Completion" false false) = [] :=
  statusSelect_privileged_transitions adminClientState (by decide) "In Progress" (by decide)
    "Completed" (by decide) 3 false false

/-- C3: the permission resolver is a deterministic lookup on the role
string: with the client state derived from a stored role `r`,
`canAssignTask` holds exactly for lowercase admin / division head,
`canUseMultiAssign` exactly for the five privileged roles, and
`setupRoleBasedUI` shows the team-creation, remove-member,
closure-control, user-management and assignment sections exactly when
the corresponding role predicate holds. -/
theorem rolePermissions_deterministic (r : String) :
    (canAssignTask ⟨⟨none, none, none, some r⟩, none⟩ = true ↔
      (jsToLower r = "admin" ∨ jsToLower r = "division head")) ∧
    (canUseMultiAssign ⟨⟨none, none, none, some r⟩, none⟩ = true ↔
      jsToLower r ∈ (["admin", "division head", "group head", "team lead",
        "project director"] : List String)) ∧
    ((setupRoleBasedUI (some r) ⟨⟨none, none, none, some r⟩, none⟩).teamSection = true ↔
      jsToLower r ∈ (["admin", "division head", "team lead", "project director",
        "group head"] : List String)) ∧
    ((setupRoleBasedUI (some r) ⟨⟨none, none, none, some r⟩, none⟩).removeMemberCard = true ↔
      jsToLower r ∈ (["admin", "division head", "project director", "group head",
        "team lead"] : List String)) ∧
    ((setupRoleBasedUI (some r) ⟨⟨none, none, none, some r⟩, none⟩).closureGroup = true ↔
      jsToLower r ∈ (["team lead", "group head", "project director", "division head",
        "admin"] : List String)) ∧
    ((setupRoleBasedUI (some r) ⟨⟨none, none, none, some r⟩, none⟩).usersSection = true ↔
      (jsToLower r = "admin" ∨ jsToLower r = "division head")) ∧
    ((setupRoleBasedUI (some r) ⟨⟨none, none, none, some r⟩, none⟩).multiAssignWrap =
      canUseMultiAssign ⟨⟨none, none, none, some r⟩, none⟩) ∧
    ((setupRoleBasedUI (some r) ⟨⟨none, none, none, some r⟩, none⟩).singleAssignWrap =
      (!canUseMultiAssign ⟨⟨none, none, none, some r⟩, none⟩ &&
        canAssignTask ⟨⟨none, none, none, some r⟩, none⟩)) := by
  by_cases hr : r = ""
  · subst hr
    refine ⟨by decide, by decide, by decide, by decide, by decide, by decide, rfl, rfl⟩
  · have hjor : jsOr (some r) "member" = r := by simp [jsOr, hr]
    refine ⟨?_, ?_, ?_, ?_, ?_, ?_, rfl, rfl⟩ <;>
      simp [canAssignTask, canUseMultiAssign, getEffectiveRole, setupRoleBasedUI, hjor] <;>
      aesop

/-- C3 witness: concrete instances at the role string "Admin". -/
theorem rolePermissions_deterministic_witness :
    canAssignTask ⟨⟨none, none, none, some "Admin"⟩, none⟩ = true ∧
    (setupRoleBasedUI (some "Admin") ⟨⟨none, none, none, some "Admin"⟩, none⟩).usersSection = true :=
  ⟨(rolePermissions_deterministic "Admin").1.mpr (by decide),
   (rolePermissions_deterministic "Admin").2.2.2.2.2.1.mpr (by decide)⟩

/-- C4: on any 401 response both `apiRequest` and `apiRequestFormData`
clear the four session keys from localStorage, redirect exactly when the
page path contains "dashboard", and throw an error carrying the
response's detail message (falling back to "Session expired"); neither
function retries: every response with a non-ok status produces a thrown
error and never a returned value. -/
theorem apiRequest_unauthorized_handling
    (endpoint method : String) (data : Option String) (useAuth : Bool)
    (store : LocalStore) (path : String) (resp : HttpResponse) (formData : String)
    (h401 : resp.status = 401) :
    ((apiRequest endpoint method data useAuth store path resp).storeAfter = clearedStore) ∧
    ((apiRequestFormData endpoint method formData store path resp).storeAfter = clearedStore) ∧
    ((apiRequest endpoint method data useAuth store path resp).redirected =
      jsIncludes path "dashboard") ∧
    ((apiRequestFormData endpoint method formData store path resp).redirected =
      jsIncludes path "dashboard") ∧
    ((apiRequest endpoint method data useAuth store path resp).outcome =
      Except.error (jsOr (parseBody resp).detail "Session expired")) ∧
    ((apiRequestFormData endpoint method formData store path resp).outcome =
      Except.error (jsOr (parseBody resp).detail "Session expired")) ∧
    (∀ resp2 : HttpResponse, respOk resp2 = false → ∀ b,
      (apiRequest endpoint method data useAuth store path resp2).outcome ≠ Except.ok b) ∧
    (∀ resp2 : HttpResponse, respOk resp2 = false → ∀ b,
      (apiRequestFormData endpoint method formData store path resp2).outcome ≠ Except.ok b) := by
  refine ⟨?_, ?_, ?_, ?_, ?_, ?_, ?_, ?_⟩
  · simp [apiRequest, handleResponse, h401]
  · simp [apiRequestFormData, handleResponse, h401]
  · simp [apiRequest, handleResponse, h401]
  · simp [apiRequestFormData, handleResponse, h401]
  · simp [apiRequest, handleResponse, h401]
  · simp [apiRequestFormData, handleResponse, h401]
  · intro resp2 hok b
    exact handleResponse_notOk _ store path resp2 hok b
  · intro resp2 hok b
    exact handleResponse_notOk _ store path resp2 hok b

/-- C4 witness: a concrete 401 JSON response on a dashboard page. -/
theorem apiRequest_unauthorized_handling_witness :
    (apiRequest "/tasks" "GET" none true
        ⟨some "tok", some "1", some "u", some "member"⟩ "/dashboard.html"
        ⟨401, some "application/json", ⟨some "Invalid session", "raw"⟩, "Unauthorized"⟩).storeAfter =
      clearedStore ∧
    (apiRequest "/tasks" "GET" none true
        ⟨some "tok", some "1", some "u", some "member"⟩ "/dashboard.html"
        ⟨401, some "application/json", ⟨some "Invalid session", "raw"⟩, "Unauthorized"⟩).outcome =
      Except.error (jsOr (parseBody
        ⟨401, some "application/json", ⟨some "Invalid session", "raw"⟩, "Unauthorized"⟩).detail
        "Session expired") := by
  have h := apiRequest_unauthorized_handling "/tasks" "GET" none true
    ⟨some "tok", some "1", some "u", some "member"⟩ "/dashboard.html"
    ⟨401, some "application/json", ⟨some "Invalid session", "raw"⟩, "Unauthorized"⟩ "fd" rfl
  exact ⟨h.1, h.2.2.2.2.1⟩

/-- C9: `apiRequest` returns the parsed body exactly for ok responses
(substituting a synthetic detail object when the content type is not
JSON), throws for every non-ok response so a caller never receives a
value from a failed request, and attaches a request body only when data
is present and the method is POST or PUT. -/
theorem apiRequest_response_contract
    (endpoint method : String) (data : Option String) (useAuth : Bool)
    (store : LocalStore) (path : String) (resp : HttpResponse) :
    (respOk resp = true →
      (apiRequest endpoint method data useAuth store path resp).outcome =
        Except.ok (parseBody resp)) ∧
    (respOk resp = true → respIsJson resp = false →
      (apiRequest endpoint method data useAuth store path resp).outcome =
        Except.ok ⟨some (jsOrStr resp.statusText "Request failed"), ""⟩) ∧
    (respOk resp = false → ∀ b,
      (apiRequest endpoint method data useAuth store path resp).outcome ≠ Except.ok b) ∧
    (respOk resp = false → ∃ msg,
      (apiRequest endpoint method data useAuth store path resp).outcome = Except.error msg) ∧
    ((method = "GET" ∨ method = "DELETE") →
      (apiRequest endpoint method data useAuth store path resp).request.body = none) ∧
    ((apiRequest endpoint method data useAuth store path resp).request.body ≠ none →
      data ≠ none ∧ (method = "POST" ∨ method = "PUT")) := by
  refine ⟨?_, ?_, ?_, ?_, ?_, ?_⟩
  · intro hok
    have h401 : resp.status ≠ 401 := by
      simp only [respOk, decide_eq_true_eq] at hok
      omega
    simp [apiRequest, handleResponse, h401, hok]
  · intro hok hjson
    have h401 : resp.status ≠ 401 := by
      simp only [respOk, decide_eq_true_eq] at hok
      omega
    simp [apiRequest, handleResponse, h401, hok, parseBody, hjson]
  · intro hok b
    exact handleResponse_notOk _ store path resp hok b
  · intro hok
    exact handleResponse_error _ store path resp hok
  · intro hm
    rcases hm with rfl | rfl <;>
      simp [apiRequest, handleResponse_request, apiRequestReq]
  · intro hbody
    by_cases hc : data ≠ none ∧ (method = "POST" ∨ method = "PUT")
    · exact hc
    · exfalso
      apply hbody
      simp only [apiRequest, handleResponse_request, apiRequestReq]
      rw [if_neg hc]

/-- C9 witness: a concrete ok JSON response with data on a GET. -/
theorem apiRequest_response_contract_witness :
    (apiRequest "/tasks" "GET" (some "ignored") true
        ⟨some "tok", some "1", some "u", some "member"⟩ "/dashboard.html"
        ⟨200, some "application/json", ⟨none, "body"⟩, "OK"⟩).outcome =
      Except.ok (parseBody ⟨200, some "application/json", ⟨none, "body"⟩, "OK"⟩) ∧
    (apiRequest "/tasks" "GET" (some "ignored") true
        ⟨some "tok", some "1", some "u", some "member"⟩ "/dashboard.html"
        ⟨200, some "application/json", ⟨none, "body"⟩, "OK"⟩).request.body = none := by
  have h := apiRequest_response_contract "/tasks" "GET" (some "ignored") true
    ⟨some "tok", some "1", some "u", some "member"⟩ "/dashboard.html"
    ⟨200, some "application/json", ⟨none, "body"⟩, "OK"⟩
  exact ⟨h.1 (by decide), h.2.2.2.2.1 (Or.inl rfl)⟩

/-- C6: an authenticated `apiRequest` with a session token present sends
it in the `X-Session-Token` header; a call with `useAuth = false` sends
only the content-type header, so the login, registration and
credential-reset endpoints are reached without any session header. -/
theorem apiRequest_sessionHeader :
    (∀ (endpoint method : String) (data : Option String) (store : LocalStore)
        (path : String) (resp : HttpResponse) (t : String),
      store.session_token = some t → t ≠ "" →
      (apiRequest endpoint method data true store path resp).request.headers =
        [("Content-Type", "application/json"), ("X-Session-Token", t)]) ∧
    (∀ (endpoint method : String) (data : Option String) (store : LocalStore)
        (path : String) (resp : HttpResponse),
      (apiRequest endpoint method data false store path resp).request.headers =
        [("Content-Type", "application/json")]) ∧
    (∀ e ∈ unauthEndpoints, ∀ (method : String) (data : Option String)
        (store : LocalStore) (path : String) (resp : HttpResponse) (v : String),
      ("X-Session-Token", v) ∉
        (apiRequest e method data false store path resp).request.headers) := by
  refine ⟨?_, ?_, ?_⟩
  · intro endpoint method data store path resp t ht htne
    simp [apiRequest, handleResponse_request, apiRequestReq, jsOrNull, ht, htne]
  · intro endpoint method data store path resp
    simp [apiRequest, handleResponse_request, apiRequestReq]
  · intro e he method data store path resp v
    simp [apiRequest, handleResponse_request, apiRequestReq]

/-- C6 witness: a concrete authenticated call and a concrete login
call. -/
theorem apiRequest_sessionHeader_witness :
    (apiRequest "/tasks" "GET" none true
        ⟨some "tok", some "1", some "u", some "member"⟩ "/dashboard.html"
        ⟨200, some "application/json", ⟨none, ""⟩, "OK"⟩).request.headers =
      [("Content-Type", "application/json"), ("X-Session-Token", "tok")] ∧
    ("X-Session-Token", "tok") ∉
      (apiRequest "/login" "POST" (some "credentials") false
        ⟨some "tok", some "1", some "u", some "member"⟩ "/index.html"
        ⟨200, some "application/json", ⟨none, ""⟩, "OK"⟩).request.headers :=
  ⟨apiRequest_sessionHeader.1 "/tasks" "GET" none
      ⟨some "tok", some "1", some "u", some "member"⟩ "/dashboard.html"
      ⟨200, some "application/json", ⟨none, ""⟩, "OK"⟩ "tok" rfl (by decide),
   apiRequest_sessionHeader.2.2 "/login" (by decide) "POST" (some "credentials")
      ⟨some "tok", some "1", some "u", some "member"⟩ "/index.html"
      ⟨200, some "application/json", ⟨none, ""⟩, "OK"⟩ "tok"⟩

/-- C5: while a task's extension status is "pending" the client never
opens a new extension request — non-admins see the disabled Pending
button and only admins get the review action; the open-request action is
offered only when the extension status is absent, "approved" or
"rejected"; and an approving review with a valid final date includes
`new_due_date` in the `PUT /tasks/extension-requests/(id)` payload. -/
theorem extensionRequest_pending_gate :
    (∀ (st : ClientState) (taskId : Int) (due : Option String) (reqId : Option Int),
      isUserAdmin st = false →
      extensionButton st taskId due (some "pending") reqId =
        ⟨"Pending", true, none⟩) ∧
    (∀ (st : ClientState) (taskId : Int) (due : Option String) (reqId : Option Int),
      isUserAdmin st = true →
      extensionButton st taskId due (some "pending") reqId =
        ⟨"Pending", false, some (ExtButtonAction.review (reqId.getD 0) taskId)⟩) ∧
    (∀ (st : ClientState) (taskId : Int) (due : Option String)
        (extStatus : Option String) (reqId : Option Int) (tid : Int) (cd : String),
      (extensionButton st taskId due extStatus reqId).action =
        some (ExtButtonAction.openRequest tid cd) →
      jsOrNull extStatus = none ∨ jsOrNull extStatus = some "approved" ∨
        jsOrNull extStatus = some "rejected") ∧
    (∀ (st : ClientState) (reqId taskId : Int) (f : String),
      isUserAdmin st = true → reqId ≠ 0 → jsTrim f ≠ "" → isDateShape (jsTrim f) = true →
      reviewExtensionRequest st reqId taskId true (some f) =
        some ⟨"/tasks/extension-requests/" ++ toString reqId, "PUT",
              [("status", "approved"), ("new_due_date", jsTrim f)]⟩) := by
  refine ⟨?_, ?_, ?_, ?_⟩
  · intro st taskId due reqId hadm
    simp [extensionButton, jsOrNull, hadm]
  · intro st taskId due reqId hadm
    simp [extensionButton, jsOrNull, hadm]
  · intro st taskId due extStatus reqId tid cd hact
    simp only [extensionButton] at hact
    cases hes : jsOrNull extStatus with
    | none => exact Or.inl rfl
    | some es =>
      rw [hes] at hact
      by_cases h1 : es = "rejected" ∨ es = "approved"
      · rcases h1 with rfl | rfl
        · exact Or.inr (Or.inr rfl)
        · exact Or.inr (Or.inl rfl)
      · by_cases h2 : es = "pending"
        · subst h2
          cases hadm : isUserAdmin st <;> simp [h1, hadm] at hact
        · simp [h1, h2] at hact
  · intro st reqId taskId f hadm hreq htrim hshape
    simp [reviewExtensionRequest, hreq, hadm, htrim, hshape]

/-- C5 witness: a member sees the disabled Pending button; an admin
review with a valid date carries the new due date. -/
theorem extensionRequest_pending_gate_witness :
    extensionButton memberClientState 4 (some "2026-10-20") (some "pending") (some 9) =
      ⟨"Pending", true, none⟩ ∧
    reviewExtensionRequest adminClientState 9 4 true (some "2026-11-01") =
      some ⟨"/tasks/extension-requests/" ++ toString (9 : Int), "PUT",
            [("status", "approved"), ("new_due_date", jsTrim "2026-11-01")]⟩ :=
  ⟨extensionRequest_pending_gate.1 memberClientState 4 (some "2026-10-20") (some 9) (by decide),
   extensionRequest_pending_gate.2.2.2 adminClientState 9 4 "2026-11-01"
     (by decide) (by decide) (by decide) (by decide)⟩

/-- C7 counterexample: when the DELETE fails, `confirmDeleteTeam` only
shows the error toast — the team list is not reloaded (no `reloadTeams`
effect), contrary to the claim that a failed deletion reloads the team
list. -/
theorem confirmDeleteTeam_noReload_counterexample :
    ClientEffect.toastError "Cannot delete a team that still has members or tasks" ∈
      confirmDeleteTeam (some 1) true
        (Except.error "Cannot delete a team that still has members or tasks") ∧
    ClientEffect.reloadTeams ∉
      confirmDeleteTeam (some 1) true
        (Except.error "Cannot delete a team that still has members or tasks") := by
  refine ⟨by simp [confirmDeleteTeam, jsOrStr], by simp [confirmDeleteTeam, jsOrStr]⟩

/-- C7 (amended): deleting a team that still has members or tasks fails
on the (spec-modelled) backend, `confirmDeleteTeam` issues the DELETE
only after user confirmation, and a failed deletion is surfaced as an
error toast while the team list is left as it is (not reloaded), so the
team remains. -/
theorem deleteTeam_restricted
    (teams : List TeamRec) (tid : Nat) (t : TeamRec)
    (hfind : teams.find? (fun x => x.id == tid) = some t)
    (hne : t.members ≠ [] ∨ t.tasks ≠ []) :
    (∃ e, backendDeleteTeam teams tid = Except.error e) ∧
    (∀ l, backendDeleteTeam teams tid ≠ Except.ok l) ∧
    (∀ res, confirmDeleteTeam (some tid) false res = []) ∧
    (∀ e, ClientEffect.toastError (jsOrStr e "Failed to delete team") ∈
      confirmDeleteTeam (some tid) true (Except.error e)) ∧
    (∀ e, ClientEffect.reloadTeams ∉ confirmDeleteTeam (some tid) true (Except.error e)) := by
  have hrestrict : ¬(t.members = [] ∧ t.tasks = []) := by
    rcases hne with h | h
    · exact fun hc => h hc.1
    · exact fun hc => h hc.2
  have hbackend : backendDeleteTeam teams tid =
      Except.error "Cannot delete a team that still has members or tasks" := by
    simp [backendDeleteTeam, hfind, hrestrict]
  refine ⟨⟨_, hbackend⟩, ?_, ?_, ?_, ?_⟩
  · intro l h
    rw [hbackend] at h
    exact Except.noConfusion h
  · intro res
    simp [confirmDeleteTeam]
  · intro e
    simp [confirmDeleteTeam]
  · intro e
    simp [confirmDeleteTeam]

/-- C7 witness: a concrete team with one member cannot be deleted and
the failure path emits only the error toast. -/
theorem deleteTeam_restricted_witness :
    (∃ e, backendDeleteTeam [⟨1, [5], []⟩] 1 = Except.error e) ∧
    ClientEffect.reloadTeams ∉
      confirmDeleteTeam (some 1) true (Except.error "has members") := by
  have h := deleteTeam_restricted [⟨1, [5], []⟩] 1 ⟨1, [5], []⟩ (by decide)
    (Or.inl (by decide))
  exact ⟨h.1, h.2.2.2.2 "has members"⟩

/-- C10: every role value the client writes to the localStorage role key
(login, server sync, self role change) is lowercase, and the permission
checks lowercase the stored role before comparing, so permission
decisions agree on any two stored role strings with the same lowercase
form. -/
theorem roleCase_invariance :
    (∀ r : Option String, isLowercaseNormalized (loginStoredRole r)) ∧
    (∀ r : Option String, isLowercaseNormalized (syncStoredRole r)) ∧
    (∀ r ∈ selfRoleChangeValues, isLowercaseNormalized r) ∧
    (∀ s1 s2 : String, jsToLower s1 = jsToLower s2 →
      ∀ (store : LocalStore) (eff : Option String),
        getEffectiveRole ⟨{store with role := some s1}, eff⟩ =
          getEffectiveRole ⟨{store with role := some s2}, eff⟩ ∧
        isUserAdmin ⟨{store with role := some s1}, eff⟩ =
          isUserAdmin ⟨{store with role := some s2}, eff⟩ ∧
        canAssignTask ⟨{store with role := some s1}, eff⟩ =
          canAssignTask ⟨{store with role := some s2}, eff⟩ ∧
        canUseMultiAssign ⟨{store with role := some s1}, eff⟩ =
          canUseMultiAssign ⟨{store with role := some s2}, eff⟩) := by
  refine ⟨?_, ?_, ?_, ?_⟩
  · intro r
    exact jsToLower_idem _
  · intro r
    exact jsToLower_idem _
  · intro r hr
    have h2 : r = "division head" ∨ r = "member" := by simpa [selfRoleChangeValues] using hr
    rcases h2 with rfl | rfl
    · exact (by decide : jsToLower "division head" = "division head")
    · exact (by decide : jsToLower "member" = "member")
  · intro s1 s2 hl store eff
    have key : jsToLower (jsOr (some s1) "member") = jsToLower (jsOr (some s2) "member") := by
      by_cases h1 : s1 = ""
      · have h2 : s2 = "" := by
          rw [h1] at hl
          exact (jsToLower_eq_empty_iff s2).mp hl.symm
        rw [h1, h2]
      · have h2 : s2 ≠ "" := by
          intro h
          rw [h] at hl
          exact h1 ((jsToLower_eq_empty_iff s1).mp hl)
        simp [jsOr, h1, h2, hl]
    have heff : getEffectiveRole ⟨{store with role := some s1}, eff⟩ =
        getEffectiveRole ⟨{store with role := some s2}, eff⟩ := by
      cases eff with
      | some e => rfl
      | none => exact key
    refine ⟨heff, ?_, ?_, ?_⟩
    · simp only [isUserAdmin, key]
    · simp only [canAssignTask, key]
    · simp only [canUseMultiAssign, heff]

/-- C10 witness: concrete case variants agree. -/
theorem roleCase_invariance_witness :
    isLowercaseNormalized (loginStoredRole (some "ADMIN")) ∧
    canAssignTask ⟨⟨none, none, none, some "Admin"⟩, none⟩ =
      canAssignTask ⟨⟨none, none, none, some "admin"⟩, none⟩ :=
  ⟨roleCase_invariance.1 (some "ADMIN"),
   (roleCase_invariance.2.2.2 "Admin" "admin" (by decide) ⟨none, none, none, none⟩ none).2.2.1⟩
